import Mathlib

/-!
# Verification of the boomerang expression IR (`src/db/exp.cpp`)

A shallow embedding of the expression tree of `src/db/exp.cpp` together with
its structural equality, total order, plus-minus partitioning, arithmetic
normalisation, polymorphic peephole simplifier, search machinery,
`fixSuccessor`, and the binary (de)serializer.  Machine `int`s are modelled as
mathematical `Int` with explicit 32-bit wrap (`i32`) applied exactly where the
C++ code performs `int` arithmetic that may overflow; `double` payloads are
modelled by their 64-bit pattern (an `Int`), compared under IEEE `==` and
`<` semantics (NaN compares false even with itself); strings by `String`.

The operator enumeration `OPER` and a handful of one-line virtual defaults
live in the repository's `exp.h`, which is not part of the excerpt; they are
modelled from the spec where needed (each such definition carries a
`Modelled from the spec:` note).  The numeric values of the enum tags are
unknown; an arbitrary injective numbering is used (apart from `opWild`, whose
value is `-1` per the comment at `exp.cpp:971`).  No claim settled below
depends on the relative numbering of two distinct tags: every deciding input
compares nodes with equal tags.
-/

/-- Modelled from the spec: the operator enumeration `OPER` of the missing
`exp.h`.  Only the tags the claims need are present (the enumeration is
closed, and no operation below inspects tags outside this set). -/
inductive OPER where
  | wild | intConst | fltConst | strConst
  | plus | minus | mult | mults | div | divs | mod | mods
  | shiftL | shiftR | shiftRA
  | bitOr | bitAnd | bitXor | logAnd | logOr
  | equals | notEqual | less | gtr | lessEq | gtrEq
  | lessUns | gtrUns | lessEqUns | gtrEqUns
  | neg | not | lNot | size | addrOf | memOf | regOf | successor
  | zfill | sgnEx | var | list | nil
  | typedExp | assignExp | flagDef
  | afp | agp | pc
  deriving DecidableEq, Repr

/-- Modelled from the spec: the integer value of each enum tag (`(int)op`).
`opWild` is `-1` (comment at `exp.cpp:971`); the rest get an arbitrary
injective nonnegative numbering, since `exp.h` is not in the excerpt. -/
def OPER.code : OPER → Int
  | .wild => -1
  | .intConst => 1 | .fltConst => 2 | .strConst => 3
  | .plus => 10 | .minus => 11 | .mult => 12 | .mults => 13
  | .div => 14 | .divs => 15 | .mod => 16 | .mods => 17
  | .shiftL => 18 | .shiftR => 19 | .shiftRA => 20
  | .bitOr => 21 | .bitAnd => 22 | .bitXor => 23 | .logAnd => 24 | .logOr => 25
  | .equals => 30 | .notEqual => 31 | .less => 32 | .gtr => 33
  | .lessEq => 34 | .gtrEq => 35
  | .lessUns => 36 | .gtrUns => 37 | .lessEqUns => 38 | .gtrEqUns => 39
  | .neg => 40 | .not => 41 | .lNot => 42 | .size => 43
  | .addrOf => 44 | .memOf => 45 | .regOf => 46 | .successor => 47
  | .zfill => 48 | .sgnEx => 49 | .var => 50 | .list => 51 | .nil => 52
  | .typedExp => 60 | .assignExp => 61 | .flagDef => 62
  | .afp => 70 | .agp => 71 | .pc => 72

/-- Recover a tag from its integer code (`op = (OPER)iop` in
`Exp::deserialize`); `none` when the integer matches no tag. -/
def OPER.ofCode (i : Int) : Option OPER :=
  (([.wild, .intConst, .fltConst, .strConst,
     .plus, .minus, .mult, .mults, .div, .divs, .mod, .mods,
     .shiftL, .shiftR, .shiftRA,
     .bitOr, .bitAnd, .bitXor, .logAnd, .logOr,
     .equals, .notEqual, .less, .gtr, .lessEq, .gtrEq,
     .lessUns, .gtrUns, .lessEqUns, .gtrEqUns,
     .neg, .not, .lNot, .size, .addrOf, .memOf, .regOf, .successor,
     .zfill, .sgnEx, .var, .list, .nil,
     .typedExp, .assignExp, .flagDef,
     .afp, .agp, .pc] : List OPER).find? (fun o => o.code == i))

/-- `op1 < op2` on tags: the C++ enum comparison `op < o.getOper()`. -/
def OPER.lt (a b : OPER) : Bool := a.code < b.code

/-- Modelled from the spec: the opaque external `Type` handle
(`src/include/type.h` declares the interface only; §6 of the spec requires
`clone`, `equals`, `less`, `size_in_bits`, `serialize`/`deserialize`).
It is compared and serialized but never inspected by the expression core. -/
structure Ty where
  tid : Nat
  bits : Int
  deriving DecidableEq, Repr

/-- `Type::operator==` of the external handle. -/
def Ty.eqb (a b : Ty) : Bool := a.tid == b.tid && a.bits == b.bits

/-- `Type::operator<` of the external handle. -/
def Ty.ltb (a b : Ty) : Bool :=
  a.tid < b.tid || (a.tid == b.tid && a.bits < b.bits)

/-- Modelled from the spec: the opaque external `RTL` handle owned by a
`FlagDef` node.  Expression equality and order never look at it
(`FlagDef` inherits `Unary::operator==` / `Unary::operator<`). -/
structure RTLh where
  rid : Nat
  deriving DecidableEq, Repr

/-- The payload union of `Const` (`exp.cpp:60-64`): an `int`, a `double`
(modelled by its bit pattern), or a string.  The payload kind determines the
node's op (`opIntConst`, `opFltConst`, `opStrConst`). -/
inductive Cval where
  | int (i : Int)
  | flt (bits : Int)
  | str (s : String)
  deriving DecidableEq, Repr

/-- The expression tree: the class hierarchy of `exp.cpp` as a tagged
variant.  `Const`, `Terminal`, `Unary`, `Binary`, `Ternary` carry their op;
`TypedExp`, `AssignExp`, `FlagDef` have fixed ops (`opTypedExp`,
`opAssignExp`, `opFlagDef`).  Children are total (the C++ null-child states
exist only transiently during construction/move-out). -/
inductive Exp where
  | econst (v : Cval)
  | terminal (op : OPER)
  | unary (op : OPER) (e1 : Exp)
  | binary (op : OPER) (e1 e2 : Exp)
  | ternary (op : OPER) (e1 e2 e3 : Exp)
  | typed (t : Ty) (e1 : Exp)
  | assign (size : Int) (e1 e2 : Exp)
  | flagdef (e1 : Exp) (r : RTLh)
  deriving DecidableEq, Repr

namespace Exp

/-- The op of a `Const`, determined by the payload kind. -/
def Cval.oper : Cval → OPER
  | .int _ => .intConst
  | .flt _ => .fltConst
  | .str _ => .strConst

/-- `Exp::getOper()`. -/
def opOf : Exp → OPER
  | econst v => Cval.oper v
  | terminal op => op
  | unary op _ => op
  | binary op _ _ => op
  | ternary op _ _ _ => op
  | typed _ _ => .typedExp
  | assign _ _ _ => .assignExp
  | flagdef _ _ => .flagDef

/-- `getSubExp1()` where it exists.  Leaves have no children; accessing one
in C++ is the programmer error of §4.1 and never happens on the inputs that
settle a claim. -/
def sub1? : Exp → Option Exp
  | unary _ e => some e
  | binary _ e _ => some e
  | ternary _ e _ _ => some e
  | typed _ e => some e
  | assign _ e _ => some e
  | flagdef e _ => some e
  | _ => none

/-- Total `getSubExp1` with a junk default for the out-of-contract case. -/
def getSub1 (e : Exp) : Exp := (sub1? e).getD (terminal .wild)

/-- Total `getSubExp2` with a junk default for the out-of-contract case. -/
def getSub2 : Exp → Exp
  | binary _ _ e => e
  | ternary _ _ e _ => e
  | assign _ _ e => e
  | _ => terminal .wild

/-- Total `getSubExp3` with a junk default for the out-of-contract case. -/
def getSub3 : Exp → Exp
  | ternary _ _ _ e => e
  | _ => terminal .wild

/-- Every tag has the same size; used only for the termination measures. -/
theorem sizeOf_oper (op : OPER) : sizeOf op = 1 := by cases op <;> rfl

/-- Every const payload has positive size; used only for the termination
measures. -/
theorem one_le_sizeOf_cval (v : Cval) : 1 ≤ sizeOf v := by
  cases v <;> simp

/-- Every expression has positive size; used only for the termination
measures. -/
theorem one_le_sizeOf_exp (e : Exp) : 1 ≤ sizeOf e := by
  cases e <;> simp <;> omega

/-- `getSub1` never grows the size; used only for termination measures. -/
theorem sizeOf_getSub1_le (o : Exp) : sizeOf (getSub1 o) ≤ sizeOf o := by
  cases o with
  | econst v => have := one_le_sizeOf_cval v; simp [getSub1, sub1?]; omega
  | terminal op => simp [getSub1, sub1?, sizeOf_oper]
  | _ => simp [getSub1, sub1?] <;> omega

/-- `getSub2` never grows the size; used only for termination measures. -/
theorem sizeOf_getSub2_le (o : Exp) : sizeOf (getSub2 o) ≤ sizeOf o := by
  cases o with
  | econst v => have := one_le_sizeOf_cval v; simp [getSub2]; omega
  | terminal op => simp [getSub2, sizeOf_oper]
  | typed t e1 => have := one_le_sizeOf_exp e1; simp [getSub2]; omega
  | flagdef e1 r => have := one_le_sizeOf_exp e1; simp [getSub2]; omega
  | _ => simp [getSub2, sizeOf_oper] <;> omega

/-- `getSub3` never grows the size; used only for termination measures. -/
theorem sizeOf_getSub3_le (o : Exp) : sizeOf (getSub3 o) ≤ sizeOf o := by
  cases o with
  | econst v => have := one_le_sizeOf_cval v; simp [getSub3]; omega
  | terminal op => simp [getSub3, sizeOf_oper]
  | typed t e1 => have := one_le_sizeOf_exp e1; simp [getSub3]; omega
  | flagdef e1 r => have := one_le_sizeOf_exp e1; simp [getSub3]; omega
  | assign sz e1 e2 => have := one_le_sizeOf_exp e1; simp [getSub3]; omega
  | _ => simp [getSub3, sizeOf_oper] <;> omega

/-- `Const::getInt()` (`u.i`); junk `0` outside `IntConst` (the C++ would
read the union raw; every use below is guarded by an op test). -/
def getIntD : Exp → Int
  | econst (.int i) => i
  | _ => 0

/-- `AssignExp::size`; junk `0` when the node is not an `AssignExp` (the C++
cast would read garbage; every use below is guarded by an op test). -/
def getSizeD : Exp → Int
  | assign sz _ _ => sz
  | _ => 0

/-- `Exp::setOper` (sets the op field in place).  On `Const`, `Typed`,
`Assign` and `FlagDef` the class determines the op; the simplifier only ever
calls it on `Unary`/`Binary` nodes. -/
def setOper (o : OPER) : Exp → Exp
  | terminal _ => terminal o
  | unary _ e => unary o e
  | binary _ a b => binary o a b
  | ternary _ a b c => ternary o a b c
  | e => e

/-! ### IEEE-754 semantics of the `double` payload

A `double` is its 64-bit pattern; `Const::operator==` (exp.cpp:348) and
`Const::operator<` (exp.cpp:460) compare the *values* with IEEE `==` and
`<`.  On patterns this means: any NaN compares false under both, `+0.0`
and `-0.0` are equal, and otherwise the order is the sign-magnitude order
of the patterns. -/

/-- The 64-bit pattern of a `double` payload. -/
def u64pat (n : Int) : Nat := (Int.emod n (2 ^ 64)).toNat

/-- A NaN pattern: exponent field all ones, mantissa nonzero. -/
def isNan64 (n : Nat) : Bool :=
  ((n >>> 52) &&& 0x7FF == 0x7FF) && (n &&& (2 ^ 52 - 1) != 0)

/-- The two zero patterns (`+0.0` and `-0.0`), equal under IEEE `==`. -/
def isZero64 (n : Nat) : Bool := n == 0 || n == 2 ^ 63

/-- IEEE `u.d == o.u.d` on the 64-bit patterns: false when either side is
NaN (even on identical patterns), true on the two zeros, else pattern
equality. -/
def fltEq (a b : Int) : Bool :=
  let x := u64pat a
  let y := u64pat b
  if isNan64 x || isNan64 y then false
  else if isZero64 x && isZero64 y then true
  else x == y

/-- Monotone key for the IEEE order of non-NaN patterns: positives (sign
bit clear) above all negatives in pattern order, negatives in reversed
pattern order, `-0.0` identified with `+0.0`. -/
def fltKey (n : Nat) : Nat :=
  let m := if n == 2 ^ 63 then 0 else n
  if m < 2 ^ 63 then m + 2 ^ 63 else 2 ^ 64 - 1 - m

/-- IEEE `u.d < o.u.d` on the 64-bit patterns: false when either side is
NaN, else the key order. -/
def fltLt (a b : Int) : Bool :=
  let x := u64pat a
  let y := u64pat b
  if isNan64 x || isNan64 y then false
  else fltKey x < fltKey y

/-- No float payload of the expression is a NaN pattern.  Under the IEEE
`==` of `Const::operator==` (exp.cpp:348) structural equality is reflexive
exactly on such expressions; the predicate states the amended round-trip
claim (C1). -/
def nanFree : Exp → Bool
  | econst (.flt b) => !isNan64 (u64pat b)
  | econst _ => true
  | terminal _ => true
  | unary _ e1 => nanFree e1
  | binary _ e1 e2 => nanFree e1 && nanFree e2
  | ternary _ e1 e2 e3 => nanFree e1 && nanFree e2 && nanFree e3
  | typed _ e1 => nanFree e1
  | assign _ e1 e2 => nanFree e1 && nanFree e2
  | flagdef e1 _ => nanFree e1

/-- Structural equality with wildcard semantics: the virtual
`operator==` family (`exp.cpp:341-403`).  Dispatch is on the left operand's
class, exactly as the C++ virtual call; `FlagDef` uses `Unary::operator==`
(no override), so the RTL handle is ignored. -/
def eqExp : Exp → Exp → Bool
  | econst v, o =>
      -- Const::operator== (exp.cpp:341)
      (Cval.oper v == .wild) || (opOf o == .wild) ||
      ((Cval.oper v == opOf o) &&
        match v, o with
        | .int i, econst (.int j) => i == j
        | .flt a, econst (.flt b) => fltEq a b
        | .str s, econst (.str t) => s == t
        | _, _ => false)
  | terminal a, o =>
      -- Terminal::operator== (exp.cpp:380)
      (a == .wild) || (opOf o == .wild) || (a == opOf o)
  | unary a e1, o =>
      -- Unary::operator== (exp.cpp:356)
      (a == .wild) || (opOf o == .wild) ||
      ((a == opOf o) && eqExp e1 (getSub1 o))
  | binary a e1 e2, o =>
      -- Binary::operator== (exp.cpp:363)
      (a == .wild) || (opOf o == .wild) ||
      ((a == opOf o) && eqExp e1 (getSub1 o) && eqExp e2 (getSub2 o))
  | ternary a e1 e2 e3, o =>
      -- Ternary::operator== (exp.cpp:371)
      (a == .wild) || (opOf o == .wild) ||
      ((a == opOf o) && eqExp e1 (getSub1 o) && eqExp e2 (getSub2 o) &&
        eqExp e3 (getSub3 o))
  | typed t e1, o =>
      -- TypedExp::operator== (exp.cpp:386): type-sensitive
      (opOf o == .wild) ||
      ((opOf o == .typedExp) &&
        (match o with
         | typed t2 _ => Ty.eqb t t2
         | _ => false) &&
        eqExp e1 (getSub1 o))
  | assign sz e1 e2, o =>
      -- AssignExp::operator== (exp.cpp:395): size-sensitive
      (opOf o == .wild) ||
      ((opOf o == .assignExp) && (getSizeD o == sz) &&
        eqExp e1 (getSub1 o) && eqExp e2 (getSub2 o))
  | flagdef e1 _, o =>
      -- FlagDef has no operator== override: Unary::operator== runs
      (opOf o == .wild) ||
      ((opOf o == .flagDef) && eqExp e1 (getSub1 o))

/-- The payload comparison inside `Const::operator<` (`exp.cpp:456`): the
C++ switches on `op` and reads the other side's union member; doubles are
compared with IEEE `<` (`fltLt`). -/
def cvalLt : Cval → Exp → Bool
  | .int i, econst (.int j) => i < j
  | .flt a, econst (.flt b) => fltLt a b
  | .str s, econst (.str t) => s < t
  | _, _ => false

/-- The total order: the virtual `operator<` family (`exp.cpp:453-516`).
Transcribed verbatim, including `Ternary::operator<` comparing children 1
and 3 but not 2 (`exp.cpp:487-493`) and `AssignExp::operator<` using a bare
disjunction of the child comparisons (`exp.cpp:509-516`). -/
def lessExp : Exp → Exp → Bool
  | econst v, o =>
      if OPER.lt (Cval.oper v) (opOf o) then true
      else if OPER.lt (opOf o) (Cval.oper v) then false
      else cvalLt v o
  | terminal a, o => OPER.lt a (opOf o)
  | unary a e1, o =>
      if OPER.lt a (opOf o) then true
      else if OPER.lt (opOf o) a then false
      else lessExp e1 (getSub1 o)
  | binary a e1 e2, o =>
      if OPER.lt a (opOf o) then true
      else if OPER.lt (opOf o) a then false
      else if lessExp e1 (getSub1 o) then true
      else if lessExp (getSub1 o) e1 then false
      else lessExp e2 (getSub2 o)
  | ternary a e1 _ e3, o =>
      -- exp.cpp:487: subExp2 is never compared
      if OPER.lt a (opOf o) then true
      else if OPER.lt (opOf o) a then false
      else if lessExp e1 (getSub1 o) then true
      else if lessExp (getSub1 o) e1 then false
      else lessExp e3 (getSub3 o)
  | typed t e1, o =>
      if OPER.lt .typedExp (opOf o) then true
      else if OPER.lt (opOf o) .typedExp then false
      else
        match o with
        | typed t2 o1 =>
            if Ty.ltb t t2 then true
            else if Ty.ltb t2 t then false
            else lessExp e1 o1
        | _ => false
  | assign sz e1 e2, o =>
      -- exp.cpp:509: `sub1 < o.sub1 || sub2 < o.sub2`
      if OPER.lt .assignExp (opOf o) then true
      else if OPER.lt (opOf o) .assignExp then false
      else if sz < getSizeD o then true
      else if getSizeD o < sz then false
      else lessExp e1 (getSub1 o) || lessExp e2 (getSub2 o)
  | flagdef e1 _, o =>
      -- FlagDef has no operator< override: Unary::operator< runs
      if OPER.lt .flagDef (opOf o) then true
      else if OPER.lt (opOf o) .flagDef then false
      else lessExp e1 (getSub1 o)
termination_by x o => sizeOf x + sizeOf o
decreasing_by
  all_goals first
    | (have h1 := sizeOf_getSub1_le o; simp [sizeOf_oper] at h1 ⊢; omega)
    | (have h2 := sizeOf_getSub2_le o; simp [sizeOf_oper] at h2 ⊢; omega)
    | (have h3 := sizeOf_getSub3_le o; simp [sizeOf_oper] at h3 ⊢; omega)
    | (simp [sizeOf_oper]; omega)

end Exp

namespace Exp

/-! ## 32-bit machine arithmetic

The C++ `int` is 32 bits.  Payloads are mathematical `Int`s; the wrap `i32`
is applied where the source performs `int` arithmetic whose two's-complement
wrap the spec fixes (§4.3.2 rule 1).
-/

/-- Wrap to a signed 32-bit value (two's complement). -/
def i32 (n : Int) : Int := Int.emod (n + 2 ^ 31) (2 ^ 32) - 2 ^ 31

/-- `(unsigned)k` for a 32-bit `int` value: reduce mod `2^32`. -/
def u32 (n : Int) : Int := Int.emod n (2 ^ 32)

/-- The unsigned 32-bit pattern as a `Nat`, for the bitwise operations. -/
def u32n (n : Int) : Nat := (Int.emod n (2 ^ 32)).toNat

/-- `~k` on a 32-bit `int` (exact for two's complement). -/
def bnot32 (n : Int) : Int := i32 (-n - 1)

/-- `k1 | k2` on 32-bit `int`s. -/
def bor32 (a b : Int) : Int := i32 (Int.ofNat (Nat.lor (u32n a) (u32n b)))

/-- `k1 & k2` on 32-bit `int`s. -/
def band32 (a b : Int) : Int := i32 (Int.ofNat (Nat.land (u32n a) (u32n b)))

/-- `k1 ^ k2` on 32-bit `int`s. -/
def bxor32 (a b : Int) : Int := i32 (Int.ofNat (Nat.xor (u32n a) (u32n b)))

/-- `k1 << k2`.  Shifts outside `0 ≤ k2 < 32` are undefined in C; the model
returns `0` there (no claim's input reaches that region). -/
def shl32 (a b : Int) : Int :=
  if 0 ≤ b && b < 32 then i32 (a * 2 ^ b.toNat) else 0

/-- `k1 >> k2` on a signed `int`: arithmetic shift (floor division), the
behaviour of the compilers this code targets; out-of-range shifts as in
`shl32`. -/
def sar32 (a b : Int) : Int :=
  if 0 ≤ b && b < 32 then Int.fdiv (i32 a) (2 ^ b.toNat) else 0

/-- Modelled from the spec: `Exp::isComparison` of the missing `exp.h` — the
signed and unsigned comparison tags (the comparison rows of §4.3.2 and its
rules 12-13). -/
def isCmpOper : OPER → Bool
  | .equals | .notEqual | .less | .gtr | .lessEq | .gtrEq
  | .lessUns | .gtrUns | .lessEqUns | .gtrEqUns => true
  | _ => false

/-- The constant-folding table of `Binary::polySimplify`
(`exp.cpp:1659-1701`): `(result, change)`; `change = false` for ops outside
the table.  The transcription keeps the source's fall-throughs: `case opDiv`
has no `break` and falls into `case opDivs`, so the unsigned quotient is
divided a second time, signed, by `k2`; likewise `case opMod` falls into
`case opMods`. -/
def foldConsts (op : OPER) (k1 k2 : Int) : Int × Bool :=
  match op with
  | .plus => (i32 (k1 + k2), true)
  | .minus => (i32 (k1 - k2), true)
  | .div =>
      -- exp.cpp:1667 falls through to 1668
      (i32 (Int.tdiv (i32 (Int.ediv (u32 k1) (u32 k2))) k2), true)
  | .divs => (i32 (Int.tdiv k1 k2), true)
  | .mod =>
      -- exp.cpp:1669 falls through to 1670
      (i32 (Int.tmod (i32 (Int.emod (u32 k1) (u32 k2))) k2), true)
  | .mods => (i32 (Int.tmod k1 k2), true)
  | .mult => (i32 (k1 * k2), true)
  | .mults => (i32 (k1 * k2), true)
  | .shiftL => (shl32 k1 k2, true)
  | .shiftR => (sar32 k1 k2, true)
  | .shiftRA =>
      -- exp.cpp:1675: (k1 >> k2) | (((1 << k2) - 1) << (32 - k2))
      (bor32 (sar32 k1 k2) (shl32 (shl32 1 k2 - 1) (32 - k2)), true)
  | .bitOr => (bor32 k1 k2, true)
  | .bitAnd => (band32 k1 k2, true)
  | .bitXor => (bxor32 k1 k2, true)
  | .logAnd => (if k1 != 0 && k2 != 0 then 1 else 0, true)
  | .logOr => (if k1 != 0 || k2 != 0 then 1 else 0, true)
  | .equals => (if k1 == k2 then 1 else 0, true)
  | .notEqual => (if k1 != k2 then 1 else 0, true)
  | .less => (if k1 < k2 then 1 else 0, true)
  | .gtr => (if k2 < k1 then 1 else 0, true)
  | .lessEq => (if k1 ≤ k2 then 1 else 0, true)
  | .gtrEq => (if k2 ≤ k1 then 1 else 0, true)
  | .lessUns => (if u32 k1 < u32 k2 then 1 else 0, true)
  | .gtrUns => (if u32 k2 < u32 k1 then 1 else 0, true)
  | .lessEqUns => (if u32 k1 ≤ u32 k2 then 1 else 0, true)
  | .gtrEqUns => (if u32 k2 ≤ u32 k1 then 1 else 0, true)
  | _ => (k1, false)

/-! ## Plus-minus partitioning and arithmetic normalisation -/

/-- `Exp::Accumulate` (`exp.cpp:1518`): the right-associated `+` chain of a
list; `[]` gives `0`, a singleton gives (a clone of) its element. -/
def Accumulate : List Exp → Exp
  | [] => econst (.int 0)
  | [x] => x
  | x :: xs => binary .plus x (Accumulate xs)

/-- `Exp::partitionTerms` (`exp.cpp:1363-1405`): classify the terms of a
`+`/`-` spine into positive terms, negative terms and integers, descending
through `opTypedExp` and `opAssignExp`.  The `opAssignExp` case reads
`getSubExp1()` twice (`exp.cpp:1385-1386`), so the LHS is partitioned twice
and the RHS never.  `push_back` order is list order.  (The C++ switches on
the op tag and casts; a non-`Binary` node carrying `opPlus`/`opMinus` is a
malformed tree and is out of scope.) -/
def partitionTermsF : Exp → Bool → List Exp × List Exp × List Int
  | binary .plus a b, negate =>
      let (p1, n1, i1) := partitionTermsF a negate
      let (p2, n2, i2) := partitionTermsF b negate
      (p1 ++ p2, n1 ++ n2, i1 ++ i2)
  | binary .minus a b, negate =>
      let (p1, n1, i1) := partitionTermsF a negate
      let (p2, n2, i2) := partitionTermsF b (!negate)
      (p1 ++ p2, n1 ++ n2, i1 ++ i2)
  | typed _ a, negate => partitionTermsF a negate
  | assign _ a _, negate =>
      -- exp.cpp:1385-1386: p1 and p2 are BOTH getSubExp1()
      let (p1, n1, i1) := partitionTermsF a negate
      let (p2, n2, i2) := partitionTermsF a negate
      (p1 ++ p2, n1 ++ n2, i1 ++ i2)
  | econst (.int k), negate => ([], [], [if negate then -k else k])
  | e, negate => if negate then ([], [e], []) else ([e], [], [])

/-- Split `rest` at the first element structurally equal to `p`
(`**pp == **nn` at `exp.cpp:1456`). -/
def findCancel (p : Exp) : List Exp → Option (List Exp × List Exp)
  | [] => none
  | n :: ns =>
      if eqExp p n then some ([], ns)
      else match findCancel p ns with
        | some (pre, post) => some (n :: pre, post)
        | none => none

/-- The pair-cancellation loop of `Binary::simplifyArith`
(`exp.cpp:1451-1468`), faithful to the iterator use of the source: the
`negatives` iterator `nn` is *not* reset for each positive term, so the scan
resumes where the previous cancellation stopped, and once some positive term
finds no partner the iterator rests at `end()` and no later positive cancels
either.  Arguments: positives still to visit, negatives already passed by
`nn`, negatives from `nn` on; result: surviving positives and negatives. -/
def cancelSweep : List Exp → List Exp → List Exp → List Exp × List Exp
  | [], pre, rest => ([], pre ++ rest)
  | p :: ps, pre, rest =>
      match findCancel p rest with
      | some (before, after) => cancelSweep ps (pre ++ before) after
      | none =>
          let (ps2, ns2) := cancelSweep ps (pre ++ rest) []
          (p :: ps2, ns2)

/-- The partition-and-recombine tail of `Binary::simplifyArith`
(`exp.cpp:1438-1505`): partition, cancel, sum the integers
(`std::accumulate` on `int`, hence the wrap), rebuild. -/
def rebuildArith (e : Exp) : Exp :=
  let pni := partitionTermsF e false
  let pn := cancelSweep pni.1 [] pni.2.1
  let sum := i32 (pni.2.2.foldl (fun a b => a + b) 0)
  match pn.1, pn.2 with
  | [], [] => econst (.int sum)
  | [], ns => binary .minus (econst (.int sum)) (Accumulate ns)
  | ps, [] =>
      if sum == 0 then Accumulate ps
      else binary .plus (Accumulate ps) (econst (.int sum))
  | ps, ns =>
      if sum == 0 then binary .minus (Accumulate ps) (Accumulate ns)
      else binary .plus (binary .minus (Accumulate ps) (Accumulate ns))
             (econst (.int sum))

/-- The virtual `simplifyArith` family (`exp.cpp:1417-1505`).  `Ternary`
inherits `Binary::simplifyArith` (children 1 and 2 visited, child 3
untouched); `TypedExp` and `FlagDef` inherit `Unary::simplifyArith`, whose
non-`MemOf`/`RegOf` branch returns the node unchanged; `Const` and
`Terminal` use the identity default of `exp.h`. -/
def simplifyArithF : Exp → Exp
  | unary op e1 =>
      if op == .memOf || op == .regOf then unary op (simplifyArithF e1)
      else unary op e1
  | assign sz a b => assign sz (simplifyArithF a) (simplifyArithF b)
  | binary op a b =>
      if op != .plus && op != .minus then
        binary op (simplifyArithF a) (simplifyArithF b)
      else rebuildArith (binary op a b)
  | ternary op a b c =>
      if op != .plus && op != .minus then
        ternary op (simplifyArithF a) (simplifyArithF b) c
      else rebuildArith (ternary op a b c)
  | typed t e => typed t e
  | flagdef e r => flagdef e r
  | e => e

/-! ## The polymorphic peephole simplifier -/

/-- The virtual `polySimplify` family (`exp.cpp:1595-2028`), with explicit
fuel: every call consumes one unit, so a `some` result is exactly the value
the (unbounded) C++ recursion computes, together with this call's
contribution to the by-reference `bMod` flag; `none` means the fuel ran out
or the `TypedExp` assertion (`exp.cpp:2014`) fired.  The `Const` and
`Terminal` cases are the identity default of the missing `exp.h`; `FlagDef`
runs `Unary::polySimplify`, whose `switch` falls to `default` on
`opFlagDef`.  Signed `int` overflow outside the §4.3.2 folding table is
undefined behaviour in the source and is modelled by exact integers. -/
def polySimp : Nat → Exp → Option (Exp × Bool)
  | 0, _ => none
  | _ + 1, econst v => some (econst v, false)
  | _ + 1, terminal op => some (terminal op, false)
  | f + 1, unary op e1 => do
      -- Unary::polySimplify (exp.cpp:1595)
      let (c1, m1) ← polySimp f e1
      match op with
      | .neg | .not | .lNot | .size =>
          let subOP := opOf c1
          if subOP == .intConst then
            -- fold -k / ~k / !k; opSize leaves the value (exp.cpp:1601-1616)
            let k := getIntD c1
            let k2 : Int :=
              match op with
              | .neg => -k
              | .not => bnot32 k
              | .lNot => if k == 0 then 1 else 0
              | _ => k
            some (econst (.int k2), true)
          else if (op == .not || op == .lNot) && subOP == .equals then
            some (setOper .notEqual c1, true)
          else if op == subOP then
            -- op(op(x)) collapses to x (exp.cpp:1622)
            some (getSub1 c1, true)
          else some (unary op c1, m1)
      | .addrOf =>
          -- a[m[x]] becomes x (exp.cpp:1630)
          if opOf c1 == .memOf then some (getSub1 c1, true)
          else some (unary op c1, m1)
      | .memOf | .regOf => do
          -- exp.cpp:1639: simplify the child again, then simplifyArith
          let (c2, m2) ← polySimp f c1
          some (unary op (simplifyArithF c2), m1 || m2)
      | _ => some (unary op c1, m1)
  | f + 1, binary op0 a0 b0 => do
      -- Binary::polySimplify (exp.cpp:1650)
      let (a1, ma) ← polySimp f a0
      let (b1, mb) ← polySimp f b0
      let m0 := ma || mb
      let opSub1 := opOf a1
      let opSub2 := opOf b1
      -- both children IntConst: the folding table (exp.cpp:1659)
      if opSub1 == .intConst && opSub2 == .intConst &&
         (foldConsts op0 (getIntD a1) (getIntD b1)).2 then
        some (econst (.int (foldConsts op0 (getIntD a1) (getIntD b1)).1), true)
      -- x ^ x or x - x is zero (exp.cpp:1703)
      else if (op0 == .bitXor || op0 == .minus) && eqExp a1 b1 then
        some (econst (.int 0), true)
      else
        -- turn a - b into a + -b; doesn't count as a change (exp.cpp:1713)
        let op1 := if op0 == .minus then OPER.plus else op0
        let b2 := if op0 == .minus then unary .neg b1 else b1
        let opSub2a := if op0 == .minus then OPER.neg else opSub2
        -- commute an integer constant to the RHS of + and *; not counted
        -- as a modification (exp.cpp:1721)
        let doCom := opSub1 == .intConst && (op1 == .plus || op1 == .mult)
        let s1 := if doCom then b2 else a1
        let s2 := if doCom then a1 else b2
        let oS1 := if doCom then opSub2a else opSub1
        let oS2 := if doCom then opSub1 else opSub2a
        -- exp + 0, exp - 0, exp | 0, exp OR 0 (exp.cpp:1733)
        if (op1 == .plus || op1 == .minus || op1 == .bitOr || op1 == .logOr) &&
           oS2 == .intConst && getIntD s2 == 0 then
          some (s1, true)
        -- exp * 0, exp & 0, exp AND 0 (exp.cpp:1741)
        else if (op1 == .mult || op1 == .mults || op1 == .bitAnd ||
                 op1 == .logAnd) && oS2 == .intConst && getIntD s2 == 0 then
          some (econst (.int 0), true)
        -- exp * 1 (exp.cpp:1750)
        else if (op1 == .mult || op1 == .mults) && oS2 == .intConst &&
                getIntD s2 == 1 then
          some (s1, true)
        -- exp AND -1, bitwise (exp.cpp:1758)
        else if op1 == .bitAnd && oS2 == .intConst && getIntD s2 == -1 then
          some (s1, true)
        -- exp AND TRUE, logical (exp.cpp:1766)
        else if op1 == .logAnd && oS2 == .intConst && getIntD s2 != 0 then
          some (s1, true)
        -- x - k to x + -k (exp.cpp:1780); unreachable: op1 is never opMinus
        -- here, the rewrite at exp.cpp:1713 already ran
        else if op1 == .minus && oS2 == .intConst then
          some (binary .plus s1 (econst (.int (-(getIntD s2)))), true)
        -- [exp] << k with 0 <= k < 32 becomes a multiply (exp.cpp:1789)
        else if op1 == .shiftL && oS2 == .intConst &&
                (0 ≤ getIntD s2 && getIntD s2 < 32) then
          some (binary .mult s1 (econst (.int (shl32 1 (getIntD s2)))), true)
        else
          -- -x compare y becomes x compare -y; not counted as a change, and
          -- the cached oS1/oS2 are deliberately not refreshed, as in the
          -- source (exp.cpp:1799)
          let doNeg := isCmpOper op1 && oS1 == .neg
          let t1 := if doNeg then getSub1 s1 else s1
          let t2 := if doNeg then unary .neg s2 else s2
          -- (x + y) compare 0 becomes x compare -y (exp.cpp:1807).  After
          -- the rewrite above the source reads the union of a non-Const
          -- through the stale oS2; the `oS1 == opPlus` conjunct keeps that
          -- read irrelevant (oS1 is then opNeg), so the junk value of
          -- `getIntD` never decides the branch
          if isCmpOper op1 && oS2 == .intConst && getIntD t2 == 0 &&
             oS1 == .plus then
            some (binary op1 (getSub1 t1) (unary .neg (getSub2 t1)), true)
          -- (x == y) == 1 becomes x == y (exp.cpp:1822)
          else if op1 == .equals && oS2 == .intConst && getIntD t2 == 1 &&
                  oS1 == .equals then
            some (binary .equals (getSub1 t1) (getSub2 t1), true)
          -- x + -n == 0 with n < 0 becomes x == n (exp.cpp:1836)
          else if op1 == .equals && oS2 == .intConst && getIntD t2 == 0 &&
                  oS1 == .plus && opOf (getSub2 t1) == .intConst &&
                  getIntD (getSub2 t1) < 0 then
            some (binary .equals (getSub1 t1)
                    (econst (.int (-(getIntD (getSub2 t1))))), true)
          -- (x == y) == 0 becomes x != y (exp.cpp:1855)
          else if op1 == .equals && oS2 == .intConst && getIntD t2 == 0 &&
                  oS1 == .equals then
            some (binary .notEqual (getSub1 t1) (getSub2 t1), true)
          -- (x == y) != 1 becomes x != y (exp.cpp:1870)
          else if op1 == .notEqual && oS2 == .intConst && getIntD t2 == 1 &&
                  oS1 == .equals then
            some (binary .notEqual (getSub1 t1) (getSub2 t1), true)
          -- (x == y) != 0 becomes x == y (exp.cpp:1885)
          else if op1 == .notEqual && oS2 == .intConst && getIntD t2 == 0 &&
                  oS1 == .equals then
            some (t1, true)
          -- (x > y) == 0 becomes x <= y (exp.cpp:1894)
          else if op1 == .equals && oS2 == .intConst && getIntD t2 == 0 &&
                  oS1 == .gtr then
            some (binary .lessEq (getSub1 t1) (getSub2 t1), true)
          -- (x >u y) == 0 becomes x <=u y (exp.cpp:1909)
          else if op1 == .equals && oS2 == .intConst && getIntD t2 == 0 &&
                  oS1 == .gtrUns then
            some (binary .lessEqUns (getSub1 t1) (getSub2 t1), true)
          -- (x <= y) || (x == y) becomes x <= y (exp.cpp:1926)
          else if op1 == .logOr && oS2 == .equals &&
                  (oS1 == .gtrEq || oS1 == .lessEq || oS1 == .gtrEqUns ||
                   oS1 == .lessEqUns) &&
                  ((eqExp (getSub1 t1) (getSub1 t2) &&
                    eqExp (getSub2 t1) (getSub2 t2)) ||
                   (eqExp (getSub1 t1) (getSub2 t2) &&
                    eqExp (getSub2 t1) (getSub1 t2))) then
            some (t1, true)
          -- for (a || b) and (a && b) recurse on a and b (exp.cpp:1940)
          else if op1 == .logOr || op1 == .logAnd then do
            let (u1, n1) ← polySimp f t1
            let (u2, n2) ← polySimp f t2
            some (binary op1 u1 u2, m0 || n1 || n2)
          -- x & x becomes x (exp.cpp:1947)
          else if op1 == .bitAnd && eqExp t1 t2 then
            some (t1, true)
          -- a + a*n becomes a*(n+1) (exp.cpp:1954)
          else if op1 == .plus && oS2 == .mult &&
                  eqExp t1 (getSub1 t2) &&
                  opOf (getSub2 t2) == .intConst then
            some (binary .mult (getSub1 t2)
                    (econst (.int (getIntD (getSub2 t2) + 1))), true)
          -- a*n*m becomes a*(n*m) (exp.cpp:1963)
          else if op1 == .mult && oS1 == .mult && oS2 == .intConst &&
                  opOf (getSub2 t1) == .intConst then
            some (binary .mult (getSub1 t1)
                    (econst (.int (getIntD (getSub2 t1) * getIntD t2))), true)
          -- !(a == b) becomes a != b (exp.cpp:1973)
          else if op1 == .lNot && oS1 == .equals then
            some (setOper .notEqual t1, true)
          -- !(a != b) becomes a == b (exp.cpp:1981)
          else if op1 == .lNot && oS1 == .notEqual then
            some (setOper .equals t1, true)
          else
            some (binary op1 t1 t2, m0)
  | f + 1, ternary op a b c => do
      -- Ternary::polySimplify (exp.cpp:1991)
      let (a1, ma) ← polySimp f a
      let (b1, mb) ← polySimp f b
      let (c1, mc) ← polySimp f c
      if opOf b1 == .intConst && opOf c1 == .intConst &&
         getIntD b1 == 1 && getIntD c1 == 0 then
        some (a1, true)
      else some (ternary op a1 b1 c1, ma || mb || mc)
  | f + 1, typed t e1 =>
      -- TypedExp::polySimplify (exp.cpp:2010); assert(opSub1 != opAssignExp)
      if opOf e1 == .assignExp then none
      else do
        let (c1, m1) ← polySimp f e1
        some (typed t c1, m1)
  | f + 1, assign sz a b => do
      -- AssignExp::polySimplify (exp.cpp:2020)
      let (a1, ma) ← polySimp f a
      let (b1, mb) ← polySimp f b
      some (assign sz a1 b1, ma || mb)
  | f + 1, flagdef e1 r => do
      let (c1, m1) ← polySimp f e1
      some (flagdef c1 r, m1)

/-- `Exp::simplify` (`exp.cpp:1564-1585`): run `polySimplify` repeatedly
until a pass reports no modification.  The fuel bounds both the pass count
and the nested re-simplification depth; a `some` result is exactly what the
unbounded C++ loop returns on a terminating run. -/
def simplifyRun : Nat → Exp → Option Exp
  | 0, _ => none
  | f + 1, e => do
      let (e1, m) ← polySimp (f + 1) e
      if m then simplifyRun f e1 else some e1

/-! ## Search -/

/-- `Exp::doSearch` / `doSearchChildren` with `once = false`
(`exp.cpp:1174-1236`): the list of all subtrees matching the pattern, in
the order the source pushes them (`*search == *pSrc`, so the pattern is the
left operand of the wildcard equality).  `FlagDef` inherits
`Unary::doSearchChildren`; `Const` and `Terminal` have no children. -/
def doSearchL (pat : Exp) : Exp → List Exp
  | e@(unary _ c1) => (if eqExp pat e then [e] else []) ++ doSearchL pat c1
  | e@(binary _ c1 c2) =>
      (if eqExp pat e then [e] else []) ++ doSearchL pat c1 ++ doSearchL pat c2
  | e@(ternary _ c1 c2 c3) =>
      (if eqExp pat e then [e] else []) ++
        doSearchL pat c1 ++ doSearchL pat c2 ++ doSearchL pat c3
  | e@(typed _ c1) => (if eqExp pat e then [e] else []) ++ doSearchL pat c1
  | e@(assign _ c1 c2) =>
      (if eqExp pat e then [e] else []) ++ doSearchL pat c1 ++ doSearchL pat c2
  | e@(flagdef c1 _) => (if eqExp pat e then [e] else []) ++ doSearchL pat c1
  | e => if eqExp pat e then [e] else []

/-- `Exp::search` (`exp.cpp:1296-1310`): `result` is zeroed first, then set
to the first collected match; `none` models the null result with a `false`
return. -/
def searchF (pat x : Exp) : Option Exp := (doSearchL pat x).head?

/-- The specification-side traversal: all subtrees in pre-order (root first,
children left to right), per §5 of the spec.  Used only to state the claim
about `search`; the executable source-side definition is `doSearchL`. -/
def preOrderL : Exp → List Exp
  | e@(unary _ c1) => e :: preOrderL c1
  | e@(binary _ c1 c2) => e :: (preOrderL c1 ++ preOrderL c2)
  | e@(ternary _ c1 c2 c3) =>
      e :: (preOrderL c1 ++ preOrderL c2 ++ preOrderL c3)
  | e@(typed _ c1) => e :: preOrderL c1
  | e@(assign _ c1 c2) => e :: (preOrderL c1 ++ preOrderL c2)
  | e@(flagdef c1 _) => e :: preOrderL c1
  | e => [e]

/-- `Exp::searchReplaceAll` with `once = true`, i.e. `Exp::searchReplace`
(`exp.cpp:1247-1284`): replace the first collected match (pre-order) by a
clone of `rep`.  The returned flag is the source's `change`. -/
def searchReplace1 (pat rep : Exp) : Exp → Exp × Bool
  | unary op c1 =>
      if eqExp pat (unary op c1) then (rep, true)
      else
        let (r1, ch) := searchReplace1 pat rep c1
        (unary op r1, ch)
  | binary op c1 c2 =>
      if eqExp pat (binary op c1 c2) then (rep, true)
      else
        let (r1, ch1) := searchReplace1 pat rep c1
        if ch1 then (binary op r1 c2, true)
        else
          let (r2, ch2) := searchReplace1 pat rep c2
          (binary op c1 r2, ch2)
  | ternary op c1 c2 c3 =>
      if eqExp pat (ternary op c1 c2 c3) then (rep, true)
      else
        let (r1, ch1) := searchReplace1 pat rep c1
        if ch1 then (ternary op r1 c2 c3, true)
        else
          let (r2, ch2) := searchReplace1 pat rep c2
          if ch2 then (ternary op c1 r2 c3, true)
          else
            let (r3, ch3) := searchReplace1 pat rep c3
            (ternary op c1 c2 r3, ch3)
  | typed t c1 =>
      if eqExp pat (typed t c1) then (rep, true)
      else
        let (r1, ch) := searchReplace1 pat rep c1
        (typed t r1, ch)
  | assign sz c1 c2 =>
      if eqExp pat (assign sz c1 c2) then (rep, true)
      else
        let (r1, ch1) := searchReplace1 pat rep c1
        if ch1 then (assign sz r1 c2, true)
        else
          let (r2, ch2) := searchReplace1 pat rep c2
          (assign sz c1 r2, ch2)
  | flagdef c1 r =>
      if eqExp pat (flagdef c1 r) then (rep, true)
      else
        let (r1, ch) := searchReplace1 pat rep c1
        (flagdef r1 r, ch)
  | e => if eqExp pat e then (rep, true) else (e, false)

/-! ## fixSuccessor -/

/-- The static search pattern `succRegOf` (`exp.cpp:2497`):
`succ(r[WILD])`. -/
def succRegOf : Exp := unary .successor (unary .regOf (terminal .wild))

/-- `Unary::fixSuccessor` (`exp.cpp:2499-2520`): find the first
`succ(r[K])`, build `r[K+1]` from a clone, and `searchReplace` the match.
`none` models a failed source assertion (the match not being
`succ(r[IntConst])`). -/
def fixSuccessorF (x : Exp) : Option Exp :=
  match searchF succRegOf x with
  | none => some x
  | some result =>
      let sub1 := getSub1 result
      if opOf sub1 != .regOf then none
      else
        let sub2 := getSub1 sub1
        if opOf sub2 != .intConst then none
        else
          let rep := unary .regOf (econst (.int (getIntD sub2 + 1)))
          some (searchReplace1 result rep x).1

/-! ## Binary serialization

`saveValue`/`loadValue` move raw host-native bytes through the stream.  The
model keeps one token per saved field, which is faithful for every stream
the serializer itself produces: fields are read back exactly in the
positions they were written (§4.4: tag byte, op as int, payload/children in
constructor order, `FID_EXP_END` marker with length 0).
-/

/-- One token of the stream. -/
inductive Tok where
  | tag (c : Char)
  | num (i : Int)
  | dbl (bits : Int)
  | str (s : String)
  | fid (f : Int)
  | len (n : Int)
  | ty (t : Ty)
  | rtl (r : RTLh)
  deriving DecidableEq, Repr

/-- `FID_EXP_END` of the missing header; its exact value is immaterial (the
stream only ever compares it with itself). -/
def FID_EXP_END : Int := 102

/-- The virtual `serialize` family (`exp.cpp:2256-2416`).  `Type` and `RTL`
payloads are emitted through the external-handle contract of §6 (one opaque
token each). -/
def serializeE : Exp → List Tok
  | econst (.int i) =>
      [.tag 'C', .num (OPER.code .intConst), .num i,
       .fid FID_EXP_END, .len 0]
  | econst (.flt b) =>
      [.tag 'C', .num (OPER.code .fltConst), .dbl b,
       .fid FID_EXP_END, .len 0]
  | econst (.str s) =>
      [.tag 'C', .num (OPER.code .strConst), .str s,
       .fid FID_EXP_END, .len 0]
  | terminal op =>
      [.tag 't', .num op.code, .fid FID_EXP_END, .len 0]
  | unary op e1 =>
      [.tag 'U', .num op.code] ++ serializeE e1 ++ [.fid FID_EXP_END, .len 0]
  | binary op e1 e2 =>
      [.tag 'B', .num op.code] ++ serializeE e1 ++ serializeE e2 ++
        [.fid FID_EXP_END, .len 0]
  | ternary op e1 e2 e3 =>
      [.tag 'T', .num op.code] ++ serializeE e1 ++ serializeE e2 ++
        serializeE e3 ++ [.fid FID_EXP_END, .len 0]
  | typed t e1 =>
      [.tag 'y', .num (OPER.code .typedExp), .ty t] ++ serializeE e1 ++
        [.fid FID_EXP_END, .len 0]
  | assign sz e1 e2 =>
      [.tag 'A', .num (OPER.code .assignExp), .num sz] ++ serializeE e1 ++
        serializeE e2 ++ [.fid FID_EXP_END, .len 0]
  | flagdef e1 r =>
      [.tag 'F', .num (OPER.code .flagDef)] ++ serializeE e1 ++
        [.rtl r, .fid FID_EXP_END, .len 0]

/-- The end-marker assertions run when `e` is non-null
(`exp.cpp:2248-2251`): `loadFID` must give `FID_EXP_END` and `loadLen` `0`;
a failed assertion aborts (outer `none`). -/
def finishNode (e : Exp) : List Tok → Option (Option Exp × List Tok)
  | .fid f :: .len n :: rest =>
      if f == FID_EXP_END && n == 0 then some (some e, rest) else none
  | _ => none

/-- `Exp::deserialize` (`exp.cpp:2165-2254`) with explicit recursion fuel.
The result is `some (e?, rest)` when the C++ call returns (with `e? = none`
for the `NULL` result of a skipped malformed record) and `none` when the
model cannot follow the source (fuel exhausted, assertion failed, stream
shape never produced by the serializer — e.g. a nested malformed record,
which the source would turn into a null child). -/
def deserializeE : Nat → List Tok → Option (Option Exp × List Tok)
  | 0, _ => none
  | f + 1, .tag ch :: .num iop :: ts2 =>
      if ch == 'C' then
        -- Const record: payload switches on the op (exp.cpp:2176-2196)
        if iop == OPER.code .intConst then
          match ts2 with
          | .num i :: ts3 => finishNode (econst (.int i)) ts3
          | _ => none
        else if iop == OPER.code .fltConst then
          match ts2 with
          | .dbl b :: ts3 => finishNode (econst (.flt b)) ts3
          | _ => none
        else if iop == OPER.code .strConst then
          match ts2 with
          | .str s :: ts3 => finishNode (econst (.str s)) ts3
          | _ => none
        else
          -- unknown const op: warning, record skipped, e stays NULL
          some (none, ts2)
      else if ch == 't' then
        match OPER.ofCode iop with
        | some op => finishNode (terminal op) ts2
        | none => none
      else if ch == 'U' then
        match OPER.ofCode iop, deserializeE f ts2 with
        | some op, some (some e1, ts3) => finishNode (unary op e1) ts3
        | _, _ => none
      else if ch == 'B' then
        match OPER.ofCode iop, deserializeE f ts2 with
        | some op, some (some e1, ts3) =>
            match deserializeE f ts3 with
            | some (some e2, ts4) => finishNode (binary op e1 e2) ts4
            | _ => none
        | _, _ => none
      else if ch == 'T' then
        match OPER.ofCode iop, deserializeE f ts2 with
        | some op, some (some e1, ts3) =>
            match deserializeE f ts3 with
            | some (some e2, ts4) =>
                match deserializeE f ts4 with
                | some (some e3, ts5) => finishNode (ternary op e1 e2 e3) ts5
                | _ => none
            | _ => none
        | _, _ => none
      else if ch == 'y' then
        match ts2 with
        | .ty t :: ts3 =>
            match deserializeE f ts3 with
            | some (some e1, ts4) => finishNode (typed t e1) ts4
            | _ => none
        | _ => none
      else if ch == 'A' then
        match ts2 with
        | .num sz :: ts3 =>
            match deserializeE f ts3 with
            | some (some e1, ts4) =>
                match deserializeE f ts4 with
                | some (some e2, ts5) => finishNode (assign sz e1 e2) ts5
                | _ => none
            | _ => none
        | _ => none
      else if ch == 'F' then
        match deserializeE f ts2 with
        | some (some e1, ts3) =>
            match ts3 with
            | .rtl r :: ts4 => finishNode (flagdef e1 r) ts4
            | _ => none
        | _ => none
      else
        -- unknown tag byte: warning, record skipped, NULL returned
        some (none, ts2)
  | _ + 1, _ => none

/-- The number of `Exp::deserialize` invocations a tree costs: one per
node. -/
def nodeCount : Exp → Nat
  | econst _ => 1
  | terminal _ => 1
  | unary _ a => 1 + nodeCount a
  | binary _ a b => 1 + nodeCount a + nodeCount b
  | ternary _ a b c => 1 + nodeCount a + nodeCount b + nodeCount c
  | typed _ a => 1 + nodeCount a
  | assign _ a b => 1 + nodeCount a + nodeCount b
  | flagdef a _ => 1 + nodeCount a

end Exp

/-! # Claims -/

namespace Exp

/-- C2.  For every well-formed expression `x`, `simplify` is claimed
idempotent: `simplify(simplify(x)).equals(simplify(x))`.  The code violates
this: on `Minus(%afp, IntConst 5)` the only pass rewrites `a - b` into
`a + -b` without flagging a modification (`exp.cpp:1711-1717`), so the
do-while of `Exp::simplify` (`exp.cpp:1570`) stops with the reducible
`Plus(%afp, Neg(5))`, while a second call folds the `Neg` and returns
`Plus(%afp, -5)`, which is not structurally equal. -/
theorem c2_simplify_not_idempotent :
    simplifyRun 9 (binary .minus (terminal .afp) (econst (.int 5))) =
      some (binary .plus (terminal .afp) (unary .neg (econst (.int 5)))) ∧
    simplifyRun 9 (binary .plus (terminal .afp) (unary .neg (econst (.int 5)))) =
      some (binary .plus (terminal .afp) (econst (.int (-5)))) ∧
    eqExp (binary .plus (terminal .afp) (econst (.int (-5))))
      (binary .plus (terminal .afp) (unary .neg (econst (.int 5)))) = false := by
  decide

/-- C3.  The claim: one peephole pass folds `Div(k1,k2)` to the unsigned
quotient and `Mod(k1,k2)` to the unsigned remainder, with `Divs`/`Mods`
folded separately to the signed results.  The code's `case opDiv` and
`case opMod` fall through into the signed cases (`exp.cpp:1667-1670`):
`Div(8,2)` folds to `2` (the unsigned quotient `4` divided again by `2`),
not `4`, and `Mod(-3,-2)` folds to `-1`, not the unsigned remainder `-3`;
the signed variants do fold as claimed. -/
theorem c3_div_mod_fall_through :
    polySimp 3 (binary .div (econst (.int 8)) (econst (.int 2))) =
      some (econst (.int 2), true) ∧
    polySimp 3 (binary .mod (econst (.int (-3))) (econst (.int (-2)))) =
      some (econst (.int (-1)), true) ∧
    polySimp 3 (binary .divs (econst (.int (-8))) (econst (.int 2))) =
      some (econst (.int (-4)), true) ∧
    polySimp 3 (binary .mods (econst (.int (-8))) (econst (.int 3))) =
      some (econst (.int (-2)), true) := by
  decide

/-- C4.  The claim: `less` on two `Ternary`s with the same op compares the
children lexicographically, all three participating.  `Ternary::operator<`
(`exp.cpp:487-493`) compares children 1 and 3 and skips child 2: with
`t1 = Ternary(zfill,1,1,1)` and `t2 = Ternary(zfill,1,2,1)` the claim makes
`t1 < t2` true, but the code finds the two incomparable while `equals`
distinguishes them. -/
theorem c4_ternary_less_skips_child2 :
    lessExp (ternary .zfill (econst (.int 1)) (econst (.int 1)) (econst (.int 1)))
      (ternary .zfill (econst (.int 1)) (econst (.int 2)) (econst (.int 1))) = false ∧
    lessExp (ternary .zfill (econst (.int 1)) (econst (.int 2)) (econst (.int 1)))
      (ternary .zfill (econst (.int 1)) (econst (.int 1)) (econst (.int 1))) = false ∧
    eqExp (ternary .zfill (econst (.int 1)) (econst (.int 1)) (econst (.int 1)))
      (ternary .zfill (econst (.int 1)) (econst (.int 2)) (econst (.int 1))) = false := by
  refine ⟨?_, ?_, by decide⟩ <;>
    simp [lessExp, OPER.lt, OPER.code, opOf, Cval.oper, getSub1, getSub2,
      getSub3, sub1?, getSizeD, cvalLt]

/-- C5.  The claim: `less` is a strict weak order on wildcard-free
expressions — never both `x < y` and `y < x` — including `Assign`s of equal
op and size.  `AssignExp::operator<` (`exp.cpp:509-516`) returns
`sub1 < o.sub1 || sub2 < o.sub2` without guarding the second disjunct, so
for `a = Assign(32, 1, 2)` and `b = Assign(32, 2, 1)` both `a < b` and
`b < a` hold. -/
theorem c5_assign_less_asymmetry_fails :
    lessExp (assign 32 (econst (.int 1)) (econst (.int 2)))
      (assign 32 (econst (.int 2)) (econst (.int 1))) = true ∧
    lessExp (assign 32 (econst (.int 2)) (econst (.int 1)))
      (assign 32 (econst (.int 1)) (econst (.int 2))) = true := by
  constructor <;>
    simp [lessExp, OPER.lt, OPER.code, opOf, Cval.oper, getSub1, getSub2,
      getSub3, sub1?, getSizeD, cvalLt]

/-- C6.  The claim: `partition_terms` on an `Assign` descends into the LHS
and then the RHS, each side contributing once.  The `opAssignExp` case of
`Exp::partitionTerms` reads `getSubExp1()` twice (`exp.cpp:1385-1386`): on
`Assign(32, %afp, %agp)` the partition is `([%afp, %afp], [], [])` — the
LHS twice, the RHS never. -/
theorem c6_partition_assign_lhs_twice :
    partitionTermsF (assign 32 (terminal .afp) (terminal .agp)) false =
      ([terminal .afp, terminal .afp], [], []) := by
  decide

/-- C7.  The claim: `simplify` rewrites `Minus(x, IntConst 0)` to `x`.  The
`exp - 0` check at `exp.cpp:1731-1738` is unreachable for `opMinus`: the
rewrite at `exp.cpp:1711-1717` has already turned the node into
`Plus(x, Neg(0))` without flagging a modification, the fresh `Neg(0)` is
never re-simplified in the pass, and the fixpoint loop stops.  On
`Minus(%afp, 0)` the code returns `Plus(%afp, Neg(0))`, not `%afp`. -/
theorem c7_minus_zero_not_removed :
    simplifyRun 9 (binary .minus (terminal .afp) (econst (.int 0))) =
      some (binary .plus (terminal .afp) (unary .neg (econst (.int 0)))) ∧
    eqExp (binary .plus (terminal .afp) (unary .neg (econst (.int 0))))
      (terminal .afp) = false := by
  decide

/-- C8 (counterexample).  The claim: `fix_successor` rewrites *every*
occurrence of `succ(r[k])`.  `Unary::fixSuccessor` (`exp.cpp:2497-2520`)
assumes a single occurrence ("Assume only one successor function in any 1
assignment") and replaces only the first collected match: on
`Plus(succ(r[7]), succ(r[3]))` the result still contains `succ(r[3])` and
differs from the everywhere-rewritten `Plus(r[8], r[4])`. -/
theorem c8_only_first_occurrence :
    fixSuccessorF (binary .plus
        (unary .successor (unary .regOf (econst (.int 7))))
        (unary .successor (unary .regOf (econst (.int 3))))) =
      some (binary .plus (unary .regOf (econst (.int 8)))
        (unary .successor (unary .regOf (econst (.int 3))))) ∧
    eqExp (binary .plus (unary .regOf (econst (.int 8)))
        (unary .successor (unary .regOf (econst (.int 3)))))
      (binary .plus (unary .regOf (econst (.int 8)))
        (unary .regOf (econst (.int 4)))) = false := by
  decide

end Exp

namespace Exp

/-- `OPER.ofCode` inverts `OPER.code` (deserializing an op the serializer
wrote recovers the op). -/
theorem ofCode_code (op : OPER) : OPER.ofCode op.code = some op := by
  cases op <;> rfl

/-- `operator==` is reflexive exactly on NaN-free expressions: every
payload comparison is reflexive except IEEE `==` on a NaN double
(exp.cpp:348). -/
theorem eqExp_refl (x : Exp) (hx : nanFree x = true) : eqExp x x = true := by
  induction x with
  | econst v =>
      cases v with
      | int i => simp [eqExp, opOf, Cval.oper]
      | flt b =>
          simp [nanFree] at hx
          simp [eqExp, opOf, Cval.oper, fltEq, hx]
      | str s => simp [eqExp, opOf, Cval.oper]
  | terminal op => simp [eqExp, opOf]
  | unary op e1 ih =>
      simp [nanFree] at hx
      simp [eqExp, opOf, getSub1, sub1?, ih hx]
  | binary op e1 e2 ih1 ih2 =>
      simp [nanFree] at hx
      simp [eqExp, opOf, getSub1, getSub2, sub1?, ih1 hx.1, ih2 hx.2]
  | ternary op e1 e2 e3 ih1 ih2 ih3 =>
      simp [nanFree] at hx
      simp [eqExp, opOf, getSub1, getSub2, getSub3, sub1?,
        ih1 hx.1.1, ih2 hx.1.2, ih3 hx.2]
  | typed t e1 ih =>
      simp [nanFree] at hx
      simp [eqExp, opOf, getSub1, sub1?, Ty.eqb, ih hx]
  | assign sz e1 e2 ih1 ih2 =>
      simp [nanFree] at hx
      simp [eqExp, opOf, getSub1, getSub2, sub1?, getSizeD, ih1 hx.1, ih2 hx.2]
  | flagdef e1 r ih =>
      simp [nanFree] at hx
      simp [eqExp, opOf, getSub1, sub1?, ih hx]

/-- C1 helper: deserializing a serialized tree with enough fuel consumes
exactly its tokens and rebuilds it. -/
theorem deser_ser (x : Exp) :
    ∀ (n : Nat) (rest : List Tok), nodeCount x ≤ n →
      deserializeE n (serializeE x ++ rest) = some (some x, rest) := by
  induction x with
  | econst v =>
      intro n rest hn
      match n with
      | 0 => simp [nodeCount] at hn
      | m + 1 =>
          cases v <;>
            simp [serializeE, deserializeE, finishNode, OPER.code, FID_EXP_END]
  | terminal op =>
      intro n rest hn
      match n with
      | 0 => simp [nodeCount] at hn
      | m + 1 =>
          simp [serializeE, deserializeE, finishNode, ofCode_code, FID_EXP_END]
  | unary op e1 ih =>
      intro n rest hn
      match n with
      | 0 => simp [nodeCount] at hn
      | m + 1 =>
          have h1 : nodeCount e1 ≤ m := by simp [nodeCount] at hn; omega
          simp [serializeE, List.append_assoc, deserializeE, ih, h1,
            ofCode_code, finishNode, FID_EXP_END]
  | binary op e1 e2 ih1 ih2 =>
      intro n rest hn
      match n with
      | 0 => simp [nodeCount] at hn
      | m + 1 =>
          have h1 : nodeCount e1 ≤ m := by simp [nodeCount] at hn; omega
          have h2 : nodeCount e2 ≤ m := by simp [nodeCount] at hn; omega
          simp [serializeE, List.append_assoc, deserializeE, ih1, ih2, h1, h2,
            ofCode_code, finishNode, FID_EXP_END]
  | ternary op e1 e2 e3 ih1 ih2 ih3 =>
      intro n rest hn
      match n with
      | 0 => simp [nodeCount] at hn
      | m + 1 =>
          have h1 : nodeCount e1 ≤ m := by simp [nodeCount] at hn; omega
          have h2 : nodeCount e2 ≤ m := by simp [nodeCount] at hn; omega
          have h3 : nodeCount e3 ≤ m := by simp [nodeCount] at hn; omega
          simp [serializeE, List.append_assoc, deserializeE, ih1, ih2, ih3,
            h1, h2, h3, ofCode_code, finishNode, FID_EXP_END]
  | typed t e1 ih =>
      intro n rest hn
      match n with
      | 0 => simp [nodeCount] at hn
      | m + 1 =>
          have h1 : nodeCount e1 ≤ m := by simp [nodeCount] at hn; omega
          simp [serializeE, List.append_assoc, deserializeE, ih, h1,
            finishNode, FID_EXP_END]
  | assign sz e1 e2 ih1 ih2 =>
      intro n rest hn
      match n with
      | 0 => simp [nodeCount] at hn
      | m + 1 =>
          have h1 : nodeCount e1 ≤ m := by simp [nodeCount] at hn; omega
          have h2 : nodeCount e2 ≤ m := by simp [nodeCount] at hn; omega
          simp [serializeE, List.append_assoc, deserializeE, ih1, ih2, h1, h2,
            finishNode, FID_EXP_END]
  | flagdef e1 r ih =>
      intro n rest hn
      match n with
      | 0 => simp [nodeCount] at hn
      | m + 1 =>
          have h1 : nodeCount e1 ≤ m := by simp [nodeCount] at hn; omega
          simp [serializeE, List.append_assoc, deserializeE, ih, h1,
            ofCode_code, finishNode, FID_EXP_END]

/-- C1 (counterexample).  The universal claim
`deserialize(serialize(x)).equals(x)` fails at a `Const` holding a NaN
double (pattern `0x7FF8000000000000`): `serialize`/`deserialize` round-trip
the bit pattern exactly, but `Const::operator==` (exp.cpp:348) compares the
doubles with IEEE `==`, which is false on NaN — the rebuilt tree is
bit-identical yet not `equals` to the input. -/
theorem c1_nan_roundtrip_not_equal :
    deserializeE (nodeCount (econst (.flt 9221120237041090560)))
        (serializeE (econst (.flt 9221120237041090560))) =
      some (some (econst (.flt 9221120237041090560)), []) ∧
    eqExp (econst (.flt 9221120237041090560))
      (econst (.flt 9221120237041090560)) = false := by
  decide

/-- C1 (amended).  Round-trip serialization: for every expression of every
variant (Const with int/float/string payload, Terminal, Unary, Binary,
Ternary, Typed, Assign with its size field, FlagDef), deserializing the
stream produced by `serialize` rebuilds the very same tree — consuming
exactly the tokens written, whatever follows — and the result is `equals`
to the input whenever no float payload of `x` is a NaN (IEEE `==` fails on
NaN; every other payload comparison is reflexive). -/
theorem c1_roundtrip_serialization (x : Exp) (rest : List Tok)
    (hx : nanFree x = true) :
    deserializeE (nodeCount x) (serializeE x ++ rest) = some (some x, rest) ∧
    eqExp x x = true :=
  ⟨deser_ser x (nodeCount x) rest (Nat.le_refl _), eqExp_refl x hx⟩

/-- Witness for C1 at a concrete tree holding an int constant and a
non-NaN float constant (the pattern of `1.0`) under an `Assign`. -/
theorem c1_roundtrip_witness :
    nanFree (assign 32 (unary .regOf (econst (.int 8)))
        (econst (.flt 4607182418800017408))) = true ∧
    (deserializeE (nodeCount (assign 32 (unary .regOf (econst (.int 8)))
          (econst (.flt 4607182418800017408))))
        (serializeE (assign 32 (unary .regOf (econst (.int 8)))
          (econst (.flt 4607182418800017408))) ++ []) =
      some (some (assign 32 (unary .regOf (econst (.int 8)))
        (econst (.flt 4607182418800017408))), []) ∧
     eqExp (assign 32 (unary .regOf (econst (.int 8)))
        (econst (.flt 4607182418800017408)))
       (assign 32 (unary .regOf (econst (.int 8)))
        (econst (.flt 4607182418800017408))) = true) :=
  ⟨by decide, c1_roundtrip_serialization
    (assign 32 (unary .regOf (econst (.int 8)))
      (econst (.flt 4607182418800017408))) [] (by decide)⟩

/-- C9.  Malformed input is skipped, not fatal: an unknown tag byte, or an
unknown const op inside a `C` record, makes `Exp::deserialize` log a
warning and return the null expression, the stream left just past the tag
and op; no assertion fires on that path. -/
theorem c9_malformed_record_skipped
    (f : Nat) (c : Char) (i : Int) (rest : List Tok) :
    (c ≠ 'C' → c ≠ 't' → c ≠ 'U' → c ≠ 'B' → c ≠ 'T' → c ≠ 'y' → c ≠ 'A' →
      c ≠ 'F' →
      deserializeE (f + 1) (.tag c :: .num i :: rest) = some (none, rest)) ∧
    (i ≠ OPER.code .intConst → i ≠ OPER.code .fltConst →
      i ≠ OPER.code .strConst →
      deserializeE (f + 1) (.tag 'C' :: .num i :: rest) = some (none, rest)) := by
  constructor
  · intro h1 h2 h3 h4 h5 h6 h7 h8
    simp [deserializeE, h1, h2, h3, h4, h5, h6, h7, h8]
  · intro h1 h2 h3
    simp [deserializeE, h1, h2, h3]

/-- Witness for C9 at a concrete malformed tag (`'Z'`) and a concrete
unknown const op (`999`). -/
theorem c9_witness :
    deserializeE 1 [Tok.tag 'Z', Tok.num 0] = some (none, []) ∧
    deserializeE 1 [Tok.tag 'C', Tok.num 999] = some (none, []) :=
  ⟨(c9_malformed_record_skipped 0 'Z' 0 []).1 (by decide) (by decide)
      (by decide) (by decide) (by decide) (by decide) (by decide) (by decide),
   (c9_malformed_record_skipped 0 'C' 999 []).2 (by decide) (by decide)
      (by decide)⟩

/-- C10 helper: the collected matches are the pre-order subtrees that
satisfy the wildcard equality, in traversal order. -/
theorem doSearchL_eq_filter (pat x : Exp) :
    doSearchL pat x = (preOrderL x).filter (fun s => eqExp pat s) := by
  induction x with
  | econst v =>
      cases h : eqExp pat (econst v) <;>
        simp [doSearchL, preOrderL, List.filter_cons, h]
  | terminal op =>
      cases h : eqExp pat (terminal op) <;>
        simp [doSearchL, preOrderL, List.filter_cons, h]
  | unary op e1 ih =>
      cases h : eqExp pat (unary op e1) <;>
        simp [doSearchL, preOrderL, List.filter_cons, List.filter_append, h, ih]
  | binary op e1 e2 ih1 ih2 =>
      cases h : eqExp pat (binary op e1 e2) <;>
        simp [doSearchL, preOrderL, List.filter_cons, List.filter_append,
          h, ih1, ih2]
  | ternary op e1 e2 e3 ih1 ih2 ih3 =>
      cases h : eqExp pat (ternary op e1 e2 e3) <;>
        simp [doSearchL, preOrderL, List.filter_cons, List.filter_append,
          h, ih1, ih2, ih3]
  | typed t e1 ih =>
      cases h : eqExp pat (typed t e1) <;>
        simp [doSearchL, preOrderL, List.filter_cons, List.filter_append, h, ih]
  | assign sz e1 e2 ih1 ih2 =>
      cases h : eqExp pat (assign sz e1 e2) <;>
        simp [doSearchL, preOrderL, List.filter_cons, List.filter_append,
          h, ih1, ih2]
  | flagdef e1 r ih =>
      cases h : eqExp pat (flagdef e1 r) <;>
        simp [doSearchL, preOrderL, List.filter_cons, List.filter_append, h, ih]

/-- C10 helper: the head of a filtered list is its first satisfying
element. -/
theorem head_filter_eq_find (p : Exp → Bool) (l : List Exp) :
    (l.filter p).head? = l.find? p := by
  induction l with
  | nil => rfl
  | cons a l ih =>
      cases h : p a <;>
        simp [List.filter_cons, List.find?_cons, h, ih]

/-- C10.  `Exp::search` zeroes its result first and returns the first
pre-order match: it yields `none` exactly when no subtree of `x` equals the
pattern under wildcard matching (the out-parameter is never left holding a
stale value), and otherwise the first match of the pre-order traversal. -/
theorem c10_search_first_preorder (p x : Exp) :
    searchF p x = (preOrderL x).find? (fun s => eqExp p s) := by
  rw [searchF, doSearchL_eq_filter, head_filter_eq_find]

/-- C8 (amended).  `fixSuccessor` rewrites the *first* pre-order occurrence
of `succ(r[k])` into `r[k + 1]`, preserving structure elsewhere:
`succ(Reg k)` becomes `Reg (k+1)` for every integer `k`, and on an
expression with two `succ(r[·])` subterms only the first is rewritten. -/
theorem c8_fixSuccessor_first_only :
    (∀ k : Int,
      fixSuccessorF (unary .successor (unary .regOf (econst (.int k)))) =
        some (unary .regOf (econst (.int (k + 1))))) ∧
    fixSuccessorF (binary .plus
        (unary .successor (unary .regOf (econst (.int 7))))
        (unary .successor (unary .regOf (econst (.int 3))))) =
      some (binary .plus (unary .regOf (econst (.int 8)))
        (unary .successor (unary .regOf (econst (.int 3))))) := by
  constructor
  · intro k
    simp [fixSuccessorF, searchF, succRegOf, doSearchL, eqExp, opOf,
      Cval.oper, getSub1, sub1?, getIntD, searchReplace1]
  · decide

end Exp
